import Mathlib

/-!
Console download link installer (pkg/install/openshift.go)

A shallow embedding of `OpenShiftConsoleDownloadLink` and `isAPIResourceInstalled`.

The cluster client is an external collaborator.  It is modelled by

* `Client`: what the cluster answers during one invocation (the discovery answer, the
  access-review answer and, for each object-store call, an optional failure that the
  call returns instead of acting), and
* `Cluster`: the mutable part, namely the stored `ConsoleCLIDownload` objects and the
  log of the API calls issued so far.

The object store keeps objects by name: `Get` reports not-found for an unknown name,
`Create` reports already-exists for a known name, `Delete` removes by name.

The semantic-version library is external too; the installer is parameterised by a
`SemVer` record holding the two entry points it uses (`NewVersion`, `LessThan`).
`defaults.Version` is a build-time constant of another package and is taken as the
parameter `version`.
-/

namespace Install

/-! ## Errors -/

/-- Reason carried by an API status error (the part inspected by `errors.IsNotFound`
and `errors.IsForbidden`); `Unknown` stands for every other failure. -/
inductive StatusReason where
  | NotFound
  | Forbidden
  | AlreadyExists
  | Unknown
  deriving DecidableEq, Repr

/-- A Go `error` value: a reason and a message. -/
structure Err where
  reason : StatusReason
  message : String
  deriving DecidableEq, Repr

/-- Go `errors.IsNotFound`. -/
def IsNotFound (err : Err) : Bool := err.reason == StatusReason.NotFound

/-- Go `errors.IsForbidden`. -/
def IsForbidden (err : Err) : Bool := err.reason == StatusReason.Forbidden

/-! ## Data model -/

/-- One entry of `console.ConsoleCLIDownloadSpec.Links`. -/
structure Link where
  Text : String
  Href : String
  deriving DecidableEq, Repr

/-- The `console.ConsoleCLIDownload` object, restricted to the fields the installer
reads or writes.  `Annotations` is the Go `map[string]string` as an association list. -/
structure ConsoleCLIDownload where
  Name : String
  Annotations : List (String × String)
  DisplayName : String
  Description : String
  Links : List Link
  deriving DecidableEq, Repr

/-- One entry of the discovery answer (`metav1.APIResource`). -/
structure APIResource where
  Name : String
  Kind : String
  deriving DecidableEq, Repr

/-- The `authorization.ResourceAttributes` of a self-subject access review. -/
structure ResourceAttributes where
  Group : String
  Resource : String
  Name : String
  Verb : String
  deriving DecidableEq, Repr

/-- An API call issued against the cluster. -/
inductive Call where
  | Discovery (groupVersion : String)
  | AccessReview (attrs : ResourceAttributes)
  | Get (name : String)
  | Delete (obj : ConsoleCLIDownload)
  | Create (obj : ConsoleCLIDownload)
  deriving DecidableEq, Repr

/-- The answers of the cluster during one invocation. -/
structure Client where
  /-- Answer of `Discovery().ServerResourcesForGroupVersion`. -/
  ServerResources : String → Except Err (List APIResource)
  /-- Answer of `SelfSubjectAccessReviews().Create`: an error, or `Status.Allowed`. -/
  AccessReview : ResourceAttributes → Except Err Bool
  /-- Failure returned by `Get` instead of looking the object up, if any. -/
  GetFailure : Option Err
  /-- Failure returned by `Delete` instead of deleting, if any. -/
  DeleteFailure : Option Err
  /-- Failure returned by `Create` instead of creating, if any. -/
  CreateFailure : Option Err

/-- The mutable cluster state: stored objects and the log of calls issued. -/
structure Cluster where
  objects : List ConsoleCLIDownload
  calls : List Call
  deriving DecidableEq, Repr

/-- Append a call to the log. -/
def Cluster.record (w : Cluster) (call : Call) : Cluster :=
  { w with calls := w.calls ++ [call] }

/-- Lookup by name in the object store. -/
def Cluster.lookup (w : Cluster) (name : String) : Option ConsoleCLIDownload :=
  w.objects.find? (fun o => o.Name == name)

/-- The status error of the object store for a missing object. -/
def errNotFound (name : String) : Err :=
  ⟨StatusReason.NotFound, "consoleclidownloads.console.openshift.io \"" ++ name ++ "\" not found"⟩

/-- The status error of the object store for a name that is taken. -/
def errAlreadyExists (name : String) : Err :=
  ⟨StatusReason.AlreadyExists, "consoleclidownloads.console.openshift.io \"" ++ name ++ "\" already exists"⟩

/-- Client call `c.Discovery().ServerResourcesForGroupVersion(groupVersion)`. -/
def Client.ServerResourcesForGroupVersion (c : Client) (groupVersion : String) (w : Cluster) :
    Except Err (List APIResource) × Cluster :=
  (c.ServerResources groupVersion, w.record (Call.Discovery groupVersion))

/-- Client call `c.AuthorizationV1().SelfSubjectAccessReviews().Create(ctx, sar, ...)`. -/
def Client.CreateAccessReview (c : Client) (attrs : ResourceAttributes) (w : Cluster) :
    Except Err Bool × Cluster :=
  (c.AccessReview attrs, w.record (Call.AccessReview attrs))

/-- Client call `c.Get(ctx, types.NamespacedName{Name: name}, existing)`. -/
def Client.Get (c : Client) (name : String) (w : Cluster) :
    Except Err ConsoleCLIDownload × Cluster :=
  let w1 := w.record (Call.Get name)
  match c.GetFailure with
  | some err => (Except.error err, w1)
  | none =>
    match w.lookup name with
    | some obj => (Except.ok obj, w1)
    | none => (Except.error (errNotFound name), w1)

/-- Client call `c.Delete(ctx, obj)`. -/
def Client.Delete (c : Client) (obj : ConsoleCLIDownload) (w : Cluster) : Option Err × Cluster :=
  let w1 := w.record (Call.Delete obj)
  match c.DeleteFailure with
  | some err => (some err, w1)
  | none =>
    match w.lookup obj.Name with
    | some _ => (none, { w1 with objects := w.objects.filter (fun o => !(o.Name == obj.Name)) })
    | none => (some (errNotFound obj.Name), w1)

/-- Client call `c.Create(ctx, &obj)`. -/
def Client.Create (c : Client) (obj : ConsoleCLIDownload) (w : Cluster) : Option Err × Cluster :=
  let w1 := w.record (Call.Create obj)
  match c.CreateFailure with
  | some err => (some err, w1)
  | none =>
    match w.lookup obj.Name with
    | some _ => (some (errAlreadyExists obj.Name), w1)
    | none => (none, { w1 with objects := w.objects ++ [obj] })

/-! ## Semantic versions -/

/-- The two entry points of the semantic-version library used by the installer. -/
structure SemVer where
  Version : Type
  NewVersion : String → Except Err Version
  LessThan : Version → Version → Bool

/-! ## Constants of the package -/

def kamelVersionAnnotation : String := "camel.apache.org/version"

def KamelCLIDownloadName : String := "kamel-cli"

def KamelCLIDownloadDisplayName : String := "kamel - Apache Camel K Command Line Interface"

def KamelCLIDownloadDescription : String :=
  "Apache Camel K is a lightweight integration platform, born on Kubernetes, with serverless superpowers.\n\n" ++
  "The `kamel` binary can be used to both configure the cluster and run integrations. " ++
  "Once you've downloaded the `kamel` binary, log into the cluster using the `oc` client tool and start using the `kamel` CLI.\n\n" ++
  "You can run `kamel help` to list the available commands or go to the [Camel K Website](https://camel.apache.org/projects/camel-k/) for more information."

def KamelCLIDownloadURLTemplate : String :=
  "https://github.com/apache/camel-k/releases/download/v%s/camel-k-client-%s-%s-64bit.tar.gz"

/-! ## Formatting -/

/-- Go `fmt.Sprintf` on characters, for formats whose only `%` sequence is the verb
`%s` and whose operands are strings: each `%s` is replaced by the next operand, a `%s`
without operand prints `%!s(MISSING)`, operands left over at the end are reported as
`%!(EXTRA string=..., ...)`, every other character is copied. -/
def sprintfChars : List Char → List String → List Char
  | [], [] => []
  | [], a :: args =>
    "%!(EXTRA ".data ++
      (String.intercalate ", " ((a :: args).map (fun s => "string=" ++ s))).data ++ [')']
  | '%' :: 's' :: rest, [] => "%!s(MISSING)".data ++ sprintfChars rest []
  | '%' :: 's' :: rest, a :: args => a.data ++ sprintfChars rest args
  | ch :: rest, args => ch :: sprintfChars rest args

/-- Go `fmt.Sprintf(format, args...)` for `%s` formats. -/
def Sprintf (format : String) (args : List String) : String :=
  String.mk (sprintfChars format.data args)

/-! ## The installer -/

/-- Source: `isAPIResourceInstalled`. The Go result `(bool, error)` is a pair. -/
def isAPIResourceInstalled (c : Client) (groupVersion : String) (kind : String) (w : Cluster) :
    (Bool × Option Err) × Cluster :=
  match c.ServerResourcesForGroupVersion groupVersion w with
  | (Except.error err, w1) =>
    if IsNotFound err then ((false, none), w1) else ((false, some err), w1)
  | (Except.ok resources, w1) =>
    if resources.any (fun resource => resource.Kind == kind) then ((true, none), w1)
    else ((false, none), w1)

/-- The access review built by the installer. -/
def accessReviewAttributes : ResourceAttributes :=
  { Group := "console.openshift.io"
    Resource := "consoleclidownloads"
    Name := KamelCLIDownloadName
    Verb := "create" }

/-- The `ConsoleCLIDownload` built by the installer for the version `version`. -/
def consoleLink (version : String) : ConsoleCLIDownload :=
  { Name := KamelCLIDownloadName
    Annotations := [( kamelVersionAnnotation, version)]
    DisplayName := KamelCLIDownloadDisplayName
    Description := KamelCLIDownloadDescription
    Links :=
      [ { Text := "Download the kamel binary for Linux"
          Href := Sprintf KamelCLIDownloadURLTemplate [version, version, "linux"] },
        { Text := "Download the kamel binary for Mac"
          Href := Sprintf KamelCLIDownloadURLTemplate [version, version, "mac"] },
        { Text := "Download the kamel binary for Windows"
          Href := Sprintf KamelCLIDownloadURLTemplate [version, version, "windows"] } ] }

/-- Source: `OpenShiftConsoleDownloadLink`. The Go `error` result is `Option Err`
(`none` is `nil`); the cluster state is threaded through the client calls. -/
def OpenShiftConsoleDownloadLink (sv : SemVer) (version : String) (c : Client) (w : Cluster) :
    Option Err × Cluster :=
  -- Check the ConsoleCLIDownload CRD is present
  match isAPIResourceInstalled c "console.openshift.io/v1" "ConsoleCLIDownload" w with
  | ((_, some err), w1) => (some err, w1)
  | ((false, none), w1) => (none, w1)
  | ((true, none), w1) =>
    -- Check for permission to create the ConsoleCLIDownload resource
    match c.CreateAccessReview accessReviewAttributes w1 with
    | (Except.error err, w2) => if IsForbidden err then (none, w2) else (some err, w2)
    | (Except.ok false, w2) => (none, w2)
    | (Except.ok true, w2) =>
      -- Create the ConsoleCLIDownload for Kamel CLI
      let create : Cluster → Option Err × Cluster := fun w4 =>
        c.Create (consoleLink version) w4
      -- The block guarded by existing != nil
      let reconcile : ConsoleCLIDownload → Cluster → Option Err × Cluster := fun existing w3 =>
        match existing.Annotations.lookup kamelVersionAnnotation with
        | none => create w3
        | some stored =>
          match sv.NewVersion stored with
          | Except.error err => (some err, w3)
          | Except.ok current =>
            match sv.NewVersion version with
            | Except.error err => (some err, w3)
            | Except.ok this =>
              if sv.LessThan this current then
                -- Keep the most recent version
                (none, w3)
              else
                -- Else delete the older version
                match c.Delete existing w3 with
                | (some err, w4) => if IsForbidden err then (none, w4) else (some err, w4)
                | (none, w4) => create w4
      -- Check for an existing ConsoleCLIDownload resource
      match c.Get KamelCLIDownloadName w2 with
      | (Except.error err, w3) => if IsNotFound err then create w3 else (some err, w3)
      | (Except.ok existing, w3) => reconcile existing w3

/-! ## A reference semantic-version instance

The release fragment of semantic versions: an optional leading `v` and one to three
dot-separated decimal segments (missing segments are zero), each below `2^63`,
ordered by major, then minor, then patch.  Pre-release and build suffixes are outside
this fragment and are rejected by it. -/

/-- Split a character list at the dots. -/
def splitDots : List Char → List (List Char)
  | [] => [[]]
  | ch :: rest =>
    match splitDots rest with
    | [] => [[ch]]
    | seg :: segs => if ch = '.' then [] :: seg :: segs else (ch :: seg) :: segs

/-- Decimal value of a non-empty digit sequence below `2^63`. -/
def parseSegment (cs : List Char) : Option Nat :=
  if cs ≠ [] ∧ cs.all Char.isDigit then
    let n := cs.foldl (fun acc ch => 10 * acc + (ch.toNat - '0'.toNat)) 0
    if n < 2 ^ 63 then some n else none
  else none

def ErrInvalidSemVer : Err := ⟨StatusReason.Unknown, "Invalid Semantic Version"⟩

/-- Parse a release version into (major, minor, patch). -/
def releaseNewVersion (s : String) : Except Err (Nat × Nat × Nat) :=
  let body := match s.data with
    | 'v' :: rest => rest
    | cs => cs
  match (splitDots body).map parseSegment with
  | [some major] => Except.ok (major, 0, 0)
  | [some major, some minor] => Except.ok (major, minor, 0)
  | [some major, some minor, some patch] => Except.ok (major, minor, patch)
  | _ => Except.error ErrInvalidSemVer

/-- Strict order on (major, minor, patch). -/
def releaseLessThan (a b : Nat × Nat × Nat) : Bool :=
  decide (a.1 < b.1) ||
    (a.1 == b.1 && (decide (a.2.1 < b.2.1) || (a.2.1 == b.2.1 && decide (a.2.2 < b.2.2))))

/-- The reference semantic-version instance. -/
def releaseSemVer : SemVer :=
  { Version := Nat × Nat × Nat
    NewVersion := releaseNewVersion
    LessThan := releaseLessThan }

/-- A cluster client on which the capability is present, access is granted and no
object-store call is made to fail. -/
def healthyClient : Client :=
  { ServerResources := fun gv =>
      if gv == "console.openshift.io/v1" then
        Except.ok [⟨"consoleclidownloads", "ConsoleCLIDownload"⟩]
      else Except.error ⟨StatusReason.NotFound, "the server could not find the requested resource"⟩
    AccessReview := fun _ => Except.ok true
    GetFailure := none
    DeleteFailure := none
    CreateFailure := none }

/-! ## Conditions on the cluster -/

/-- Discovery lists the kind `ConsoleCLIDownload` under `console.openshift.io/v1`. -/
def CapabilityPresent (c : Client) : Prop :=
  ∃ rs, c.ServerResources "console.openshift.io/v1" = Except.ok rs ∧
    ∃ r ∈ rs, r.Kind = "ConsoleCLIDownload"

/-- The access review for creating `consoleclidownloads/kamel-cli` answers allowed. -/
def AccessAllowed (c : Client) : Prop :=
  c.AccessReview ⟨"console.openshift.io", "consoleclidownloads", KamelCLIDownloadName, "create"⟩
    = Except.ok true

/-- The store holds `existing` under the reserved name, with version annotation `b`,
and the fetch is not made to fail (so `Get` returns `existing`). -/
def HoldsVersion (c : Client) (w : Cluster) (existing : ConsoleCLIDownload) (b : String) : Prop :=
  c.GetFailure = none ∧ w.lookup KamelCLIDownloadName = some existing ∧
    existing.Annotations.lookup kamelVersionAnnotation = some b

/-- The calls that precede every decision on an existing object. -/
def gateCalls : List Call :=
  [Call.Discovery "console.openshift.io/v1",
   Call.AccessReview ⟨"console.openshift.io", "consoleclidownloads", KamelCLIDownloadName, "create"⟩,
   Call.Get KamelCLIDownloadName]

/-- Capability present, access allowed and no object-store call made to fail. -/
def AllCallsSucceed (c : Client) : Prop :=
  CapabilityPresent c ∧ AccessAllowed c ∧
    c.GetFailure = none ∧ c.DeleteFailure = none ∧ c.CreateFailure = none

/-- Successive invocations, each with its own current version and cluster answers. -/
def reconcileAll (sv : SemVer) : List (String × Client) → Cluster → Cluster
  | [], w => w
  | (version, c) :: rest, w => reconcileAll sv rest (OpenShiftConsoleDownloadLink sv version c w).2

/-- An object under the reserved name that carries no annotation. -/
def bareLink : ConsoleCLIDownload :=
  { Name := KamelCLIDownloadName
    Annotations := []
    DisplayName := "kamel"
    Description := ""
    Links := [] }

/-- A cluster without the console API group: discovery reports not-found. -/
def noConsoleClient : Client :=
  { healthyClient with
    ServerResources := fun _ =>
      Except.error ⟨StatusReason.NotFound, "the server could not find the requested resource"⟩ }

/-- A cluster whose console API group lists another kind only. -/
def otherKindClient : Client :=
  { healthyClient with
    ServerResources := fun _ => Except.ok [⟨"consolelinks", "ConsoleLink"⟩] }

/-- A cluster whose discovery fails with an error other than not-found. -/
def brokenDiscoveryClient : Client :=
  { healthyClient with
    ServerResources := fun _ => Except.error ⟨StatusReason.Unknown, "connection refused"⟩ }

/-- A cluster whose access review answers with `r`. -/
def reviewClient (r : Except Err Bool) : Client :=
  { healthyClient with AccessReview := fun _ => r }

/-- A cluster whose delete call fails with `e`. -/
def deleteFailsClient (e : Err) : Client :=
  { healthyClient with DeleteFailure := some e }

/-! ## Theorems -/

@[simp] theorem Cluster.lookup_record (w : Cluster) (call : Call) (name : String) :
    (w.record call).lookup name = w.lookup name := rfl

@[simp] theorem Cluster.objects_record (w : Cluster) (call : Call) :
    (w.record call).objects = w.objects := rfl

@[simp] theorem Cluster.calls_record (w : Cluster) (call : Call) :
    (w.record call).calls = w.calls ++ [call] := rfl

theorem capability_any {c : Client} (h : CapabilityPresent c) :
    ∃ rs, c.ServerResources "console.openshift.io/v1" = Except.ok rs ∧
      rs.any (fun resource => resource.Kind == "ConsoleCLIDownload") = true := by
  obtain ⟨rs, h1, r, hr, hk⟩ := h
  exact ⟨rs, h1, List.any_eq_true.mpr ⟨r, hr, by simp [hk]⟩⟩

theorem Cluster.lookup_name {w : Cluster} {name : String} {obj : ConsoleCLIDownload}
    (h : w.lookup name = some obj) : obj.Name = name := by
  have := List.find?_some h
  simpa using this

theorem find_filter_other (l : List ConsoleCLIDownload) (name : String) :
    (l.filter (fun o => !(o.Name == name))).find? (fun o => o.Name == name) = none := by
  simp [List.find?_eq_none, List.mem_filter]

theorem filter_of_lookup_none {w : Cluster} {name : String} (h : w.lookup name = none) :
    w.objects.filter (fun o => !(o.Name == name)) = w.objects := by
  unfold Cluster.lookup at h
  rw [List.find?_eq_none] at h
  rw [List.filter_eq_self]
  intro o ho
  simpa using h o ho

theorem consoleLink_name (version : String) : (consoleLink version).Name = KamelCLIDownloadName := rfl

theorem consoleLink_version (version : String) :
    (consoleLink version).Annotations.lookup kamelVersionAnnotation = some version := by
  simp [consoleLink, List.lookup]

/-- The run when the stored version is kept. -/
theorem run_keep (sv : SemVer) (a b : String) (va vb : sv.Version)
    (c : Client) (w : Cluster) (existing : ConsoleCLIDownload)
    (hcap : CapabilityPresent c) (hacc : AccessAllowed c)
    (hstore : HoldsVersion c w existing b)
    (ha : sv.NewVersion a = Except.ok va) (hb : sv.NewVersion b = Except.ok vb)
    (hlt : sv.LessThan va vb = true) :
    OpenShiftConsoleDownloadLink sv a c w = (none, ⟨w.objects, w.calls ++ gateCalls⟩) := by
  obtain ⟨rs, h1, h2⟩ := capability_any hcap
  obtain ⟨hg, hl, hann⟩ := hstore
  unfold Cluster.lookup at hl
  unfold AccessAllowed at hacc
  simp [OpenShiftConsoleDownloadLink, isAPIResourceInstalled, Client.ServerResourcesForGroupVersion,
    Client.CreateAccessReview, Client.Get, accessReviewAttributes, gateCalls, h1, h2, hacc, hg, hl,
    hann, ha, hb, hlt, Cluster.record, Cluster.lookup]

/-- The run when the stored version is not kept and the delete call fails. -/
theorem run_delete_fails (sv : SemVer) (a b : String) (va vb : sv.Version)
    (c : Client) (w : Cluster) (existing : ConsoleCLIDownload) (e : Err)
    (hcap : CapabilityPresent c) (hacc : AccessAllowed c)
    (hstore : HoldsVersion c w existing b)
    (ha : sv.NewVersion a = Except.ok va) (hb : sv.NewVersion b = Except.ok vb)
    (hge : sv.LessThan va vb = false) (hdel : c.DeleteFailure = some e) :
    OpenShiftConsoleDownloadLink sv a c w =
      (if IsForbidden e then none else some e,
        ⟨w.objects, w.calls ++ gateCalls ++ [Call.Delete existing]⟩) := by
  obtain ⟨rs, h1, h2⟩ := capability_any hcap
  obtain ⟨hg, hl, hann⟩ := hstore
  unfold Cluster.lookup at hl
  unfold AccessAllowed at hacc
  by_cases hf : IsForbidden e = true <;>
  simp [OpenShiftConsoleDownloadLink, isAPIResourceInstalled, Client.ServerResourcesForGroupVersion,
    Client.CreateAccessReview, Client.Get, Client.Delete, accessReviewAttributes, gateCalls, h1, h2,
    hacc, hg, hl, hann, ha, hb, hge, hdel, hf, Cluster.record, Cluster.lookup]

/-- The run when the stored version is not kept and delete and create succeed. -/
theorem run_replace (sv : SemVer) (a b : String) (va vb : sv.Version)
    (c : Client) (w : Cluster) (existing : ConsoleCLIDownload)
    (hcap : CapabilityPresent c) (hacc : AccessAllowed c)
    (hstore : HoldsVersion c w existing b)
    (ha : sv.NewVersion a = Except.ok va) (hb : sv.NewVersion b = Except.ok vb)
    (hge : sv.LessThan va vb = false)
    (hdel : c.DeleteFailure = none) (hcre : c.CreateFailure = none) :
    OpenShiftConsoleDownloadLink sv a c w =
      (none,
        ⟨w.objects.filter (fun o => !(o.Name == KamelCLIDownloadName)) ++ [consoleLink a],
         w.calls ++ gateCalls ++ [Call.Delete existing, Call.Create (consoleLink a)]⟩) := by
  obtain ⟨rs, h1, h2⟩ := capability_any hcap
  obtain ⟨hg, hl, hann⟩ := hstore
  have hname : existing.Name = KamelCLIDownloadName := Cluster.lookup_name hl
  unfold Cluster.lookup at hl
  unfold AccessAllowed at hacc
  have hfind := find_filter_other w.objects KamelCLIDownloadName
  simp [OpenShiftConsoleDownloadLink, isAPIResourceInstalled, Client.ServerResourcesForGroupVersion,
    Client.CreateAccessReview, Client.Get, Client.Delete, Client.Create, accessReviewAttributes,
    gateCalls, h1, h2, hacc, hg, hl, hann, ha, hb, hge, hdel, hcre, hname, consoleLink_name,
    Cluster.record, Cluster.lookup, hfind]

/-- The run when no object with the reserved name is stored and create succeeds. -/
theorem run_absent (sv : SemVer) (a : String) (c : Client) (w : Cluster)
    (hcap : CapabilityPresent c) (hacc : AccessAllowed c)
    (hg : c.GetFailure = none) (hl : w.lookup KamelCLIDownloadName = none)
    (hcre : c.CreateFailure = none) :
    OpenShiftConsoleDownloadLink sv a c w =
      (none, ⟨w.objects ++ [consoleLink a], w.calls ++ gateCalls ++ [Call.Create (consoleLink a)]⟩) := by
  obtain ⟨rs, h1, h2⟩ := capability_any hcap
  unfold Cluster.lookup at hl
  unfold AccessAllowed at hacc
  simp [OpenShiftConsoleDownloadLink, isAPIResourceInstalled, Client.ServerResourcesForGroupVersion,
    Client.CreateAccessReview, Client.Get, Client.Create, accessReviewAttributes,
    gateCalls, h1, h2, hacc, hg, hl, hcre, consoleLink_name, errNotFound, IsNotFound,
    Cluster.record, Cluster.lookup]

theorem healthyClient_capability : CapabilityPresent healthyClient :=
  ⟨[⟨"consoleclidownloads", "ConsoleCLIDownload"⟩], rfl, ⟨"consoleclidownloads", "ConsoleCLIDownload"⟩,
    List.mem_singleton_self _, rfl⟩

theorem healthyClient_succeeds : AllCallsSucceed healthyClient :=
  ⟨healthyClient_capability, rfl, rfl, rfl, rfl⟩

/-- C1 (downgrade guard): with the capability present, access allowed and the store
holding the reserved object with version annotation `b`, a run with current version
`a`, where `a` and `b` parse and `a` is less than `b`, returns success, issues only the
discovery, access-review and fetch calls (no delete, no create) and leaves the stored
objects unchanged. -/
theorem downgrade_guard (sv : SemVer) (a b : String) (va vb : sv.Version)
    (c : Client) (w : Cluster) (existing : ConsoleCLIDownload)
    (hcap : CapabilityPresent c) (hacc : AccessAllowed c)
    (hstore : HoldsVersion c w existing b)
    (ha : sv.NewVersion a = Except.ok va) (hb : sv.NewVersion b = Except.ok vb)
    (hlt : sv.LessThan va vb = true) :
    (OpenShiftConsoleDownloadLink sv a c w).1 = none ∧
    (OpenShiftConsoleDownloadLink sv a c w).2.calls = w.calls ++ gateCalls ∧
    (OpenShiftConsoleDownloadLink sv a c w).2.objects = w.objects := by
  rw [run_keep sv a b va vb c w existing hcap hacc hstore ha hb hlt]
  exact ⟨rfl, rfl, rfl⟩

/-- Witness of C1: stored 3.0.0, current 2.0.0. -/
theorem downgrade_guard_witness :
    (OpenShiftConsoleDownloadLink releaseSemVer "2.0.0" healthyClient ⟨[consoleLink "3.0.0"], []⟩).1 = none ∧
    (OpenShiftConsoleDownloadLink releaseSemVer "2.0.0" healthyClient ⟨[consoleLink "3.0.0"], []⟩).2.calls
      = [] ++ gateCalls ∧
    (OpenShiftConsoleDownloadLink releaseSemVer "2.0.0" healthyClient ⟨[consoleLink "3.0.0"], []⟩).2.objects
      = [consoleLink "3.0.0"] :=
  downgrade_guard releaseSemVer "2.0.0" "3.0.0" (2, 0, 0) (3, 0, 0) healthyClient
    ⟨[consoleLink "3.0.0"], []⟩ (consoleLink "3.0.0") healthyClient_capability rfl
    ⟨rfl, rfl, rfl⟩ rfl rfl rfl

/-- C2 (replace on upgrade): with the capability present, access allowed, the store
holding the reserved object with version annotation `b`, and delete and create
succeeding, a run with current version `a`, where `a` and `b` parse and `a` is not less
than `b`, returns success, issues the delete of the existing object and then the create
of the new one, and afterwards the object stored under the reserved name carries the
version annotation `a`. -/
theorem replace_on_upgrade (sv : SemVer) (a b : String) (va vb : sv.Version)
    (c : Client) (w : Cluster) (existing : ConsoleCLIDownload)
    (hcap : CapabilityPresent c) (hacc : AccessAllowed c)
    (hstore : HoldsVersion c w existing b)
    (ha : sv.NewVersion a = Except.ok va) (hb : sv.NewVersion b = Except.ok vb)
    (hge : sv.LessThan va vb = false)
    (hdel : c.DeleteFailure = none) (hcre : c.CreateFailure = none) :
    (OpenShiftConsoleDownloadLink sv a c w).1 = none ∧
    (OpenShiftConsoleDownloadLink sv a c w).2.calls =
      w.calls ++ gateCalls ++ [Call.Delete existing, Call.Create (consoleLink a)] ∧
    (OpenShiftConsoleDownloadLink sv a c w).2.objects =
      w.objects.filter (fun o => !(o.Name == KamelCLIDownloadName)) ++ [consoleLink a] ∧
    ∃ stored, (OpenShiftConsoleDownloadLink sv a c w).2.lookup KamelCLIDownloadName = some stored ∧
      stored.Annotations.lookup kamelVersionAnnotation = some a := by
  rw [run_replace sv a b va vb c w existing hcap hacc hstore ha hb hge hdel hcre]
  refine ⟨rfl, rfl, rfl, consoleLink a, ?_, consoleLink_version a⟩
  simp [Cluster.lookup, List.find?_append, find_filter_other, consoleLink_name]

/-- Witness of C2: stored 1.9.0, current 2.0.0. -/
theorem replace_on_upgrade_witness :
    (OpenShiftConsoleDownloadLink releaseSemVer "2.0.0" healthyClient ⟨[consoleLink "1.9.0"], []⟩).1 = none ∧
    (OpenShiftConsoleDownloadLink releaseSemVer "2.0.0" healthyClient ⟨[consoleLink "1.9.0"], []⟩).2.calls =
      [] ++ gateCalls ++ [Call.Delete (consoleLink "1.9.0"), Call.Create (consoleLink "2.0.0")] ∧
    (OpenShiftConsoleDownloadLink releaseSemVer "2.0.0" healthyClient ⟨[consoleLink "1.9.0"], []⟩).2.objects =
      [consoleLink "1.9.0"].filter (fun o => !(o.Name == KamelCLIDownloadName)) ++ [consoleLink "2.0.0"] ∧
    ∃ stored,
      (OpenShiftConsoleDownloadLink releaseSemVer "2.0.0" healthyClient
        ⟨[consoleLink "1.9.0"], []⟩).2.lookup KamelCLIDownloadName = some stored ∧
      stored.Annotations.lookup kamelVersionAnnotation = some "2.0.0" :=
  replace_on_upgrade releaseSemVer "2.0.0" "1.9.0" (2, 0, 0) (1, 9, 0) healthyClient
    ⟨[consoleLink "1.9.0"], []⟩ (consoleLink "1.9.0") healthyClient_capability rfl
    ⟨rfl, rfl, rfl⟩ rfl rfl rfl rfl rfl

/-- After a run that stored `consoleLink v`, a second run with the same version leaves
the same objects. -/
theorem rerun_same (sv : SemVer) (v : String) (vv : sv.Version) (c : Client)
    (objs : List ConsoleCLIDownload) (calls : List Call)
    (hv : sv.NewVersion v = Except.ok vv) (hc : AllCallsSucceed c) :
    (OpenShiftConsoleDownloadLink sv v c
        ⟨objs.filter (fun o => !(o.Name == KamelCLIDownloadName)) ++ [consoleLink v], calls⟩).1 = none ∧
    (OpenShiftConsoleDownloadLink sv v c
        ⟨objs.filter (fun o => !(o.Name == KamelCLIDownloadName)) ++ [consoleLink v], calls⟩).2.objects =
      objs.filter (fun o => !(o.Name == KamelCLIDownloadName)) ++ [consoleLink v] := by
  obtain ⟨hcap, hacc, hg, hdel, hcre⟩ := hc
  have hstore : HoldsVersion c
      ⟨objs.filter (fun o => !(o.Name == KamelCLIDownloadName)) ++ [consoleLink v], calls⟩
      (consoleLink v) v := by
    refine ⟨hg, ?_, consoleLink_version v⟩
    simp [Cluster.lookup, List.find?_append, find_filter_other, consoleLink_name]
  cases hlt : sv.LessThan vv vv with
  | true =>
    rw [run_keep sv v v vv vv c _ _ hcap hacc hstore hv hv hlt]
    exact ⟨rfl, rfl⟩
  | false =>
    rw [run_replace sv v v vv vv c _ _ hcap hacc hstore hv hv hlt hdel hcre]
    refine ⟨rfl, ?_⟩
    simp [List.filter_append, consoleLink_name]

/-- C3 (idempotence of the final state): for a current version `v` that parses and an
initial store in which the reserved object is absent, or present with a version
annotation that parses, with every cluster call succeeding in both runs, the first and
the second run both return success and the second run leaves exactly the stored
objects the first run left. -/
theorem idempotent_final_state (sv : SemVer) (v : String) (vv : sv.Version)
    (c1 c2 : Client) (w : Cluster)
    (hv : sv.NewVersion v = Except.ok vv)
    (h1 : AllCallsSucceed c1) (h2 : AllCallsSucceed c2)
    (hinit : w.lookup KamelCLIDownloadName = none ∨
      ∃ existing b vb, w.lookup KamelCLIDownloadName = some existing ∧
        existing.Annotations.lookup kamelVersionAnnotation = some b ∧
        sv.NewVersion b = Except.ok vb) :
    (OpenShiftConsoleDownloadLink sv v c1 w).1 = none ∧
    (OpenShiftConsoleDownloadLink sv v c2 (OpenShiftConsoleDownloadLink sv v c1 w).2).1 = none ∧
    (OpenShiftConsoleDownloadLink sv v c2 (OpenShiftConsoleDownloadLink sv v c1 w).2).2.objects =
      (OpenShiftConsoleDownloadLink sv v c1 w).2.objects := by
  obtain ⟨hcap1, hacc1, hg1, hdel1, hcre1⟩ := h1
  rcases hinit with habs | ⟨existing, b, vb, hl, hann, hb⟩
  · rw [run_absent sv v c1 w hcap1 hacc1 hg1 habs hcre1]
    have hrr := rerun_same sv v vv c2 w.objects (w.calls ++ gateCalls ++ [Call.Create (consoleLink v)])
      hv h2
    rw [filter_of_lookup_none habs] at hrr
    exact ⟨rfl, hrr.1, hrr.2⟩
  · have hstore1 : HoldsVersion c1 w existing b := ⟨hg1, hl, hann⟩
    cases hlt : sv.LessThan vv vb with
    | true =>
      obtain ⟨hcap2, hacc2, hg2, _, _⟩ := h2
      rw [run_keep sv v b vv vb c1 w existing hcap1 hacc1 hstore1 hv hb hlt]
      have hstore2 : HoldsVersion c2 ⟨w.objects, w.calls ++ gateCalls⟩ existing b := ⟨hg2, hl, hann⟩
      rw [run_keep sv v b vv vb c2 _ existing hcap2 hacc2 hstore2 hv hb hlt]
      exact ⟨rfl, rfl, rfl⟩
    | false =>
      rw [run_replace sv v b vv vb c1 w existing hcap1 hacc1 hstore1 hv hb hlt hdel1 hcre1]
      have hrr := rerun_same sv v vv c2 w.objects
        (w.calls ++ gateCalls ++ [Call.Delete existing, Call.Create (consoleLink v)]) hv h2
      exact ⟨rfl, hrr.1, hrr.2⟩

/-- Witness of C3: stored 1.9.0, current 2.0.0, run twice. -/
theorem idempotent_final_state_witness :
    (OpenShiftConsoleDownloadLink releaseSemVer "2.0.0" healthyClient ⟨[consoleLink "1.9.0"], []⟩).1 = none ∧
    (OpenShiftConsoleDownloadLink releaseSemVer "2.0.0" healthyClient
      (OpenShiftConsoleDownloadLink releaseSemVer "2.0.0" healthyClient
        ⟨[consoleLink "1.9.0"], []⟩).2).1 = none ∧
    (OpenShiftConsoleDownloadLink releaseSemVer "2.0.0" healthyClient
      (OpenShiftConsoleDownloadLink releaseSemVer "2.0.0" healthyClient
        ⟨[consoleLink "1.9.0"], []⟩).2).2.objects =
      (OpenShiftConsoleDownloadLink releaseSemVer "2.0.0" healthyClient
        ⟨[consoleLink "1.9.0"], []⟩).2.objects :=
  idempotent_final_state releaseSemVer "2.0.0" (2, 0, 0) healthyClient healthyClient
    ⟨[consoleLink "1.9.0"], []⟩ rfl healthyClient_succeeds healthyClient_succeeds
    (Or.inr ⟨consoleLink "1.9.0", "1.9.0", (1, 9, 0), rfl, rfl, rfl⟩)

/-- C4, refuted as stated: with the stored version annotation equal to the current
version (2.0.0), the run does not keep the existing object: it issues a delete call and
a create call after the fetch. -/
theorem equal_version_not_kept :
    (Cluster.mk [consoleLink "2.0.0"] []).lookup KamelCLIDownloadName = some (consoleLink "2.0.0") ∧
    (consoleLink "2.0.0").Annotations.lookup kamelVersionAnnotation = some "2.0.0" ∧
    (OpenShiftConsoleDownloadLink releaseSemVer "2.0.0" healthyClient ⟨[consoleLink "2.0.0"], []⟩).2.calls =
      gateCalls ++ [Call.Delete (consoleLink "2.0.0"), Call.Create (consoleLink "2.0.0")] ∧
    (OpenShiftConsoleDownloadLink releaseSemVer "2.0.0" healthyClient ⟨[consoleLink "2.0.0"], []⟩).2.calls ≠
      gateCalls := by
  refine ⟨rfl, rfl, rfl, ?_⟩
  decide

/-- The run when the stored version is not kept and the delete succeeds, whatever the
create call answers. -/
theorem run_replace_any (sv : SemVer) (a b : String) (va vb : sv.Version)
    (c : Client) (w : Cluster) (existing : ConsoleCLIDownload)
    (hcap : CapabilityPresent c) (hacc : AccessAllowed c)
    (hstore : HoldsVersion c w existing b)
    (ha : sv.NewVersion a = Except.ok va) (hb : sv.NewVersion b = Except.ok vb)
    (hge : sv.LessThan va vb = false) (hdel : c.DeleteFailure = none) :
    OpenShiftConsoleDownloadLink sv a c w =
      (c.CreateFailure,
        ⟨(match c.CreateFailure with
          | some _ => w.objects.filter (fun o => !(o.Name == KamelCLIDownloadName))
          | none => w.objects.filter (fun o => !(o.Name == KamelCLIDownloadName)) ++ [consoleLink a]),
         w.calls ++ gateCalls ++ [Call.Delete existing, Call.Create (consoleLink a)]⟩) := by
  obtain ⟨rs, h1, h2⟩ := capability_any hcap
  obtain ⟨hg, hl, hann⟩ := hstore
  have hname : existing.Name = KamelCLIDownloadName := Cluster.lookup_name hl
  unfold Cluster.lookup at hl
  unfold AccessAllowed at hacc
  have hfind := find_filter_other w.objects KamelCLIDownloadName
  rcases hcre : c.CreateFailure with _ | e <;>
  simp [OpenShiftConsoleDownloadLink, isAPIResourceInstalled, Client.ServerResourcesForGroupVersion,
    Client.CreateAccessReview, Client.Get, Client.Delete, Client.Create, accessReviewAttributes,
    gateCalls, h1, h2, hacc, hg, hl, hann, ha, hb, hge, hdel, hcre, hname, consoleLink_name,
    Cluster.record, Cluster.lookup, hfind]

/-- A store that ends with the object built for `v`, after the other objects, holds
that object under the reserved name. -/
theorem holds_built (c : Client) (others : List ConsoleCLIDownload) (calls : List Call)
    (v : String) (hg : c.GetFailure = none) :
    HoldsVersion c
      ⟨others.filter (fun o => !(o.Name == KamelCLIDownloadName)) ++ [consoleLink v], calls⟩
      (consoleLink v) v := by
  refine ⟨hg, ?_, consoleLink_version v⟩
  simp [Cluster.lookup, List.find?_append, find_filter_other, consoleLink_name]

/-- C4, amended: when the store holds the reserved object with a version annotation
equal to the current version `a` (which parses and is not less than itself) and the
delete call does not fail, the object is treated as stale, not kept: the run issues the
delete of the existing object and then the create of the freshly built one.  When the
create succeeds too, the run returns success, the stored objects are the other objects
followed by the freshly built one, and the object under the reserved name carries the
version annotation `a`.  When the store is as a preceding successful run with version
`a` left it, this second run is therefore not a no-op in calls (it issues delete and
create again) but leaves the stored objects exactly as they were. -/
theorem equal_version_replaced (sv : SemVer) (a : String) (va : sv.Version)
    (c : Client) (w : Cluster) (existing : ConsoleCLIDownload)
    (hcap : CapabilityPresent c) (hacc : AccessAllowed c)
    (hstore : HoldsVersion c w existing a)
    (ha : sv.NewVersion a = Except.ok va) (hirr : sv.LessThan va va = false)
    (hdel : c.DeleteFailure = none) :
    (OpenShiftConsoleDownloadLink sv a c w).2.calls =
      w.calls ++ gateCalls ++ [Call.Delete existing, Call.Create (consoleLink a)] ∧
    (c.CreateFailure = none →
      (OpenShiftConsoleDownloadLink sv a c w).1 = none ∧
      (OpenShiftConsoleDownloadLink sv a c w).2.objects =
        w.objects.filter (fun o => !(o.Name == KamelCLIDownloadName)) ++ [consoleLink a] ∧
      ∃ stored, (OpenShiftConsoleDownloadLink sv a c w).2.lookup KamelCLIDownloadName = some stored ∧
        stored.Annotations.lookup kamelVersionAnnotation = some a) ∧
    (c.CreateFailure = none →
      ∀ others : List ConsoleCLIDownload,
        w.objects = others.filter (fun o => !(o.Name == KamelCLIDownloadName)) ++ [consoleLink a] →
        (OpenShiftConsoleDownloadLink sv a c w).2.objects = w.objects) ∧
    (∀ (c1 : Client) (w0 : Cluster), AllCallsSucceed c1 →
      (w0.lookup KamelCLIDownloadName = none ∨
        ∃ old b vb, w0.lookup KamelCLIDownloadName = some old ∧
          old.Annotations.lookup kamelVersionAnnotation = some b ∧
          sv.NewVersion b = Except.ok vb ∧ sv.LessThan va vb = false) →
      (OpenShiftConsoleDownloadLink sv a c1 w0).1 = none ∧
      (OpenShiftConsoleDownloadLink sv a c (OpenShiftConsoleDownloadLink sv a c1 w0).2).2.calls =
        (OpenShiftConsoleDownloadLink sv a c1 w0).2.calls ++ gateCalls ++
          [Call.Delete (consoleLink a), Call.Create (consoleLink a)] ∧
      (c.CreateFailure = none →
        (OpenShiftConsoleDownloadLink sv a c (OpenShiftConsoleDownloadLink sv a c1 w0).2).1 = none ∧
        (OpenShiftConsoleDownloadLink sv a c (OpenShiftConsoleDownloadLink sv a c1 w0).2).2.objects =
          (OpenShiftConsoleDownloadLink sv a c1 w0).2.objects)) := by
  have hrun := run_replace_any sv a a va va c w existing hcap hacc hstore ha ha hirr hdel
  have hsecond : ∀ (others : List ConsoleCLIDownload) (calls : List Call),
      (OpenShiftConsoleDownloadLink sv a c
        ⟨others.filter (fun o => !(o.Name == KamelCLIDownloadName)) ++ [consoleLink a], calls⟩).2.calls =
        calls ++ gateCalls ++ [Call.Delete (consoleLink a), Call.Create (consoleLink a)] ∧
      (c.CreateFailure = none →
        (OpenShiftConsoleDownloadLink sv a c
          ⟨others.filter (fun o => !(o.Name == KamelCLIDownloadName)) ++ [consoleLink a], calls⟩).1 = none ∧
        (OpenShiftConsoleDownloadLink sv a c
          ⟨others.filter (fun o => !(o.Name == KamelCLIDownloadName)) ++ [consoleLink a], calls⟩).2.objects =
          others.filter (fun o => !(o.Name == KamelCLIDownloadName)) ++ [consoleLink a]) := by
    intro others calls
    rw [run_replace_any sv a a va va c _ (consoleLink a) hcap hacc
      (holds_built c others calls a hstore.1) ha ha hirr hdel]
    refine ⟨rfl, ?_⟩
    intro hcre
    simp [hcre, List.filter_append, consoleLink_name]
  refine ⟨?_, ?_, ?_, ?_⟩
  · rw [hrun]
  · intro hcre
    rw [hrun]
    simp only [hcre]
    refine ⟨trivial, trivial, consoleLink a, ?_, consoleLink_version a⟩
    simp [Cluster.lookup, List.find?_append, find_filter_other, consoleLink_name]
  · intro hcre others hothers
    rw [hrun]
    simp only [hcre]
    rw [hothers]
    simp [List.filter_append, consoleLink_name]
  · intro c1 w0 hc1 hinit
    obtain ⟨hcap1, hacc1, hg1, hdel1, hcre1⟩ := hc1
    rcases hinit with habs | ⟨old, b, vb, hl, hann, hb, hge⟩
    · rw [run_absent sv a c1 w0 hcap1 hacc1 hg1 habs hcre1]
      have h2 := hsecond w0.objects (w0.calls ++ gateCalls ++ [Call.Create (consoleLink a)])
      rw [filter_of_lookup_none habs] at h2
      exact ⟨rfl, h2.1, h2.2⟩
    · rw [run_replace sv a b va vb c1 w0 old hcap1 hacc1 ⟨hg1, hl, hann⟩ ha hb hge hdel1 hcre1]
      have h2 := hsecond w0.objects
        (w0.calls ++ gateCalls ++ [Call.Delete old, Call.Create (consoleLink a)])
      exact ⟨rfl, h2.1, h2.2⟩

/-- Witness of the amended C4: a store holding 2.0.0 reconciled with current 2.0.0, and
a store holding 1.9.0 reconciled twice in a row with current 2.0.0. -/
theorem equal_version_replaced_witness :
    (OpenShiftConsoleDownloadLink releaseSemVer "2.0.0" healthyClient ⟨[consoleLink "2.0.0"], []⟩).2.calls =
      [] ++ gateCalls ++ [Call.Delete (consoleLink "2.0.0"), Call.Create (consoleLink "2.0.0")] ∧
    (OpenShiftConsoleDownloadLink releaseSemVer "2.0.0" healthyClient ⟨[consoleLink "2.0.0"], []⟩).1 = none ∧
    (OpenShiftConsoleDownloadLink releaseSemVer "2.0.0" healthyClient ⟨[consoleLink "2.0.0"], []⟩).2.objects =
      [consoleLink "2.0.0"] ∧
    (OpenShiftConsoleDownloadLink releaseSemVer "2.0.0" healthyClient
      (OpenShiftConsoleDownloadLink releaseSemVer "2.0.0" healthyClient
        ⟨[consoleLink "1.9.0"], []⟩).2).2.calls =
      (OpenShiftConsoleDownloadLink releaseSemVer "2.0.0" healthyClient
        ⟨[consoleLink "1.9.0"], []⟩).2.calls ++ gateCalls ++
        [Call.Delete (consoleLink "2.0.0"), Call.Create (consoleLink "2.0.0")] ∧
    (OpenShiftConsoleDownloadLink releaseSemVer "2.0.0" healthyClient
      (OpenShiftConsoleDownloadLink releaseSemVer "2.0.0" healthyClient
        ⟨[consoleLink "1.9.0"], []⟩).2).2.objects =
      (OpenShiftConsoleDownloadLink releaseSemVer "2.0.0" healthyClient
        ⟨[consoleLink "1.9.0"], []⟩).2.objects :=
  have h := equal_version_replaced releaseSemVer "2.0.0" (2, 0, 0) healthyClient
    ⟨[consoleLink "2.0.0"], []⟩ (consoleLink "2.0.0") healthyClient_capability rfl
    ⟨rfl, rfl, rfl⟩ rfl rfl rfl
  have h2 := h.2.2.2 healthyClient ⟨[consoleLink "1.9.0"], []⟩ healthyClient_succeeds
    (Or.inr ⟨consoleLink "1.9.0", "1.9.0", (1, 9, 0), rfl, rfl, rfl, rfl⟩)
  ⟨h.1, (h.2.1 rfl).1, h.2.2.1 rfl [] rfl, h2.2.1, (h2.2.2 rfl).2⟩

/-- C5 (capability gate): `isAPIResourceInstalled` returns `(true, nil)` exactly when
discovery succeeds and lists a resource of the requested kind; it returns `(false, nil)`
when discovery reports not-found or lists no resource of that kind; any other discovery
error is returned as the error.  When the probe for `console.openshift.io/v1` and kind
`ConsoleCLIDownload` answers `(false, nil)`, `OpenShiftConsoleDownloadLink` returns
success having issued the discovery call only (no access review, fetch, delete or
create) and leaves the stored objects unchanged; a discovery error that is not
not-found is returned by it after the discovery call only. -/
theorem capability_gate (c : Client) (w : Cluster) (groupVersion kind : String) :
    ((isAPIResourceInstalled c groupVersion kind w).1 = (true, none) ↔
      ∃ rs, c.ServerResources groupVersion = Except.ok rs ∧ ∃ r ∈ rs, r.Kind = kind) ∧
    (∀ e, c.ServerResources groupVersion = Except.error e → IsNotFound e = true →
      (isAPIResourceInstalled c groupVersion kind w).1 = (false, none)) ∧
    (∀ rs, c.ServerResources groupVersion = Except.ok rs → (∀ r ∈ rs, r.Kind ≠ kind) →
      (isAPIResourceInstalled c groupVersion kind w).1 = (false, none)) ∧
    (∀ e, c.ServerResources groupVersion = Except.error e → IsNotFound e = false →
      (isAPIResourceInstalled c groupVersion kind w).1 = (false, some e)) ∧
    (∀ (sv : SemVer) (version : String),
      (isAPIResourceInstalled c "console.openshift.io/v1" "ConsoleCLIDownload" w).1 = (false, none) →
      OpenShiftConsoleDownloadLink sv version c w =
        (none, ⟨w.objects, w.calls ++ [Call.Discovery "console.openshift.io/v1"]⟩)) ∧
    (∀ (sv : SemVer) (version : String) (e : Err),
      (isAPIResourceInstalled c "console.openshift.io/v1" "ConsoleCLIDownload" w).1 = (false, some e) →
      OpenShiftConsoleDownloadLink sv version c w =
        (some e, ⟨w.objects, w.calls ++ [Call.Discovery "console.openshift.io/v1"]⟩)) := by
  refine ⟨?_, ?_, ?_, ?_, ?_, ?_⟩
  · unfold isAPIResourceInstalled Client.ServerResourcesForGroupVersion
    cases hsr : c.ServerResources groupVersion with
    | error e => by_cases hnf : IsNotFound e = true <;> simp [hnf]
    | ok rs =>
      by_cases hany : rs.any (fun resource => resource.Kind == kind) = true
      · simp only [hany, if_true, true_iff]
        obtain ⟨r, hr, hk⟩ := List.any_eq_true.mp hany
        exact ⟨rs, rfl, r, hr, by simpa using hk⟩
      · simp only [hany]
        simp only [List.any_eq_true, not_exists, not_and] at hany
        simp only [Bool.false_eq_true, if_false, Prod.mk.injEq, and_true, false_iff, not_exists,
          not_and, Except.ok.injEq]
        intro rs2 hrs r hr hk
        subst hrs
        exact hany r hr (by simpa using hk)
  · intro e hsr hnf
    simp [isAPIResourceInstalled, Client.ServerResourcesForGroupVersion, hsr, hnf]
  · intro rs hsr hnone
    have hany : rs.any (fun resource => resource.Kind == kind) = false := by
      rw [Bool.eq_false_iff]
      intro h
      obtain ⟨r, hr, hk⟩ := List.any_eq_true.mp h
      exact hnone r hr (by simpa using hk)
    simp [isAPIResourceInstalled, Client.ServerResourcesForGroupVersion, hsr, hany]
  · intro e hsr hnf
    simp [isAPIResourceInstalled, Client.ServerResourcesForGroupVersion, hsr, hnf]
  · intro sv version h
    unfold OpenShiftConsoleDownloadLink
    revert h
    unfold isAPIResourceInstalled Client.ServerResourcesForGroupVersion
    cases hsr : c.ServerResources "console.openshift.io/v1" with
    | error e => by_cases hnf : IsNotFound e = true <;> simp [hnf, Cluster.record]
    | ok rs =>
      by_cases hany : rs.any (fun resource => resource.Kind == "ConsoleCLIDownload") = true <;>
        simp [hany, Cluster.record]
  · intro sv version e h
    unfold OpenShiftConsoleDownloadLink
    revert h
    unfold isAPIResourceInstalled Client.ServerResourcesForGroupVersion
    cases hsr : c.ServerResources "console.openshift.io/v1" with
    | error e2 =>
      by_cases hnf : IsNotFound e2 = true
      · simp [hnf, Cluster.record]
      · simp only [hnf]
        intro h
        simp only [Bool.false_eq_true, if_false, Prod.mk.injEq, true_and, Option.some.injEq] at h
        subst h
        simp [Cluster.record]
    | ok rs =>
      by_cases hany : rs.any (fun resource => resource.Kind == "ConsoleCLIDownload") = true <;>
        simp [hany, Cluster.record]

/-- Witness of C5: a cluster listing the kind, one without the API group, one listing
another kind only, and one whose discovery fails otherwise. -/
theorem capability_gate_witness :
    (isAPIResourceInstalled healthyClient "console.openshift.io/v1" "ConsoleCLIDownload" ⟨[], []⟩).1
      = (true, none) ∧
    (isAPIResourceInstalled noConsoleClient "console.openshift.io/v1" "ConsoleCLIDownload" ⟨[], []⟩).1
      = (false, none) ∧
    (isAPIResourceInstalled otherKindClient "console.openshift.io/v1" "ConsoleCLIDownload" ⟨[], []⟩).1
      = (false, none) ∧
    (isAPIResourceInstalled brokenDiscoveryClient "console.openshift.io/v1" "ConsoleCLIDownload"
      ⟨[], []⟩).1 = (false, some ⟨StatusReason.Unknown, "connection refused"⟩) ∧
    OpenShiftConsoleDownloadLink releaseSemVer "2.0.0" noConsoleClient ⟨[consoleLink "1.9.0"], []⟩ =
      (none, ⟨[consoleLink "1.9.0"], [] ++ [Call.Discovery "console.openshift.io/v1"]⟩) ∧
    OpenShiftConsoleDownloadLink releaseSemVer "2.0.0" brokenDiscoveryClient ⟨[consoleLink "1.9.0"], []⟩ =
      (some ⟨StatusReason.Unknown, "connection refused"⟩,
        ⟨[consoleLink "1.9.0"], [] ++ [Call.Discovery "console.openshift.io/v1"]⟩) :=
  ⟨(capability_gate healthyClient ⟨[], []⟩ "console.openshift.io/v1" "ConsoleCLIDownload").1.mpr
      ⟨[⟨"consoleclidownloads", "ConsoleCLIDownload"⟩], rfl,
        ⟨"consoleclidownloads", "ConsoleCLIDownload"⟩, List.mem_singleton_self _, rfl⟩,
    (capability_gate noConsoleClient ⟨[], []⟩ "console.openshift.io/v1" "ConsoleCLIDownload").2.1
      ⟨StatusReason.NotFound, "the server could not find the requested resource"⟩ rfl rfl,
    (capability_gate otherKindClient ⟨[], []⟩ "console.openshift.io/v1" "ConsoleCLIDownload").2.2.1
      [⟨"consolelinks", "ConsoleLink"⟩] rfl (by decide),
    (capability_gate brokenDiscoveryClient ⟨[], []⟩ "console.openshift.io/v1"
      "ConsoleCLIDownload").2.2.2.1 ⟨StatusReason.Unknown, "connection refused"⟩ rfl rfl,
    (capability_gate noConsoleClient ⟨[consoleLink "1.9.0"], []⟩ "console.openshift.io/v1"
      "ConsoleCLIDownload").2.2.2.2.1 releaseSemVer "2.0.0" rfl,
    (capability_gate brokenDiscoveryClient ⟨[consoleLink "1.9.0"], []⟩ "console.openshift.io/v1"
      "ConsoleCLIDownload").2.2.2.2.2 releaseSemVer "2.0.0" _ rfl⟩

/-- C6 (access gate): with the capability present, if the self-subject access review
for verb create on `consoleclidownloads/kamel-cli` answers not allowed, or fails with a
forbidden error, the run returns success having issued the discovery and access-review
calls only (no fetch, delete or create); if the access review fails with an error that
is not forbidden, that error is returned, again after those two calls only.  The stored
objects are unchanged in each case. -/
theorem access_gate (sv : SemVer) (version : String) (c : Client) (w : Cluster)
    (hcap : CapabilityPresent c) :
    (c.AccessReview ⟨"console.openshift.io", "consoleclidownloads", KamelCLIDownloadName, "create"⟩
        = Except.ok false →
      OpenShiftConsoleDownloadLink sv version c w =
        (none, ⟨w.objects, w.calls ++ [Call.Discovery "console.openshift.io/v1",
          Call.AccessReview
            ⟨"console.openshift.io", "consoleclidownloads", KamelCLIDownloadName, "create"⟩]⟩)) ∧
    (∀ e, c.AccessReview
          ⟨"console.openshift.io", "consoleclidownloads", KamelCLIDownloadName, "create"⟩
        = Except.error e → IsForbidden e = true →
      OpenShiftConsoleDownloadLink sv version c w =
        (none, ⟨w.objects, w.calls ++ [Call.Discovery "console.openshift.io/v1",
          Call.AccessReview
            ⟨"console.openshift.io", "consoleclidownloads", KamelCLIDownloadName, "create"⟩]⟩)) ∧
    (∀ e, c.AccessReview
          ⟨"console.openshift.io", "consoleclidownloads", KamelCLIDownloadName, "create"⟩
        = Except.error e → IsForbidden e = false →
      OpenShiftConsoleDownloadLink sv version c w =
        (some e, ⟨w.objects, w.calls ++ [Call.Discovery "console.openshift.io/v1",
          Call.AccessReview
            ⟨"console.openshift.io", "consoleclidownloads", KamelCLIDownloadName, "create"⟩]⟩)) := by
  obtain ⟨rs, h1, h2⟩ := capability_any hcap
  refine ⟨?_, ?_, ?_⟩
  · intro hacc
    simp [OpenShiftConsoleDownloadLink, isAPIResourceInstalled,
      Client.ServerResourcesForGroupVersion, Client.CreateAccessReview, accessReviewAttributes,
      h1, h2, hacc, Cluster.record]
  · intro e hacc hf
    simp [OpenShiftConsoleDownloadLink, isAPIResourceInstalled,
      Client.ServerResourcesForGroupVersion, Client.CreateAccessReview, accessReviewAttributes,
      h1, h2, hacc, hf, Cluster.record]
  · intro e hacc hf
    simp [OpenShiftConsoleDownloadLink, isAPIResourceInstalled,
      Client.ServerResourcesForGroupVersion, Client.CreateAccessReview, accessReviewAttributes,
      h1, h2, hacc, hf, Cluster.record]

/-- Witness of C6: an access review answering not allowed, one failing with forbidden
and one failing with another error, each over a store holding version 1.9.0. -/
theorem access_gate_witness :
    OpenShiftConsoleDownloadLink releaseSemVer "2.0.0" (reviewClient (Except.ok false))
        ⟨[consoleLink "1.9.0"], []⟩ =
      (none, ⟨[consoleLink "1.9.0"], [] ++ [Call.Discovery "console.openshift.io/v1",
        Call.AccessReview
          ⟨"console.openshift.io", "consoleclidownloads", KamelCLIDownloadName, "create"⟩]⟩) ∧
    OpenShiftConsoleDownloadLink releaseSemVer "2.0.0"
        (reviewClient (Except.error ⟨StatusReason.Forbidden, "forbidden"⟩))
        ⟨[consoleLink "1.9.0"], []⟩ =
      (none, ⟨[consoleLink "1.9.0"], [] ++ [Call.Discovery "console.openshift.io/v1",
        Call.AccessReview
          ⟨"console.openshift.io", "consoleclidownloads", KamelCLIDownloadName, "create"⟩]⟩) ∧
    OpenShiftConsoleDownloadLink releaseSemVer "2.0.0"
        (reviewClient (Except.error ⟨StatusReason.Unknown, "timeout"⟩))
        ⟨[consoleLink "1.9.0"], []⟩ =
      (some ⟨StatusReason.Unknown, "timeout"⟩,
        ⟨[consoleLink "1.9.0"], [] ++ [Call.Discovery "console.openshift.io/v1",
        Call.AccessReview
          ⟨"console.openshift.io", "consoleclidownloads", KamelCLIDownloadName, "create"⟩]⟩) :=
  ⟨(access_gate releaseSemVer "2.0.0" (reviewClient (Except.ok false)) ⟨[consoleLink "1.9.0"], []⟩
      healthyClient_capability).1 rfl,
    (access_gate releaseSemVer "2.0.0"
      (reviewClient (Except.error ⟨StatusReason.Forbidden, "forbidden"⟩))
      ⟨[consoleLink "1.9.0"], []⟩ healthyClient_capability).2.1 _ rfl rfl,
    (access_gate releaseSemVer "2.0.0"
      (reviewClient (Except.error ⟨StatusReason.Unknown, "timeout"⟩))
      ⟨[consoleLink "1.9.0"], []⟩ healthyClient_capability).2.2 _ rfl rfl⟩

/-- C7 (malformed existing state): for every current version, with the capability
present, access allowed and the store holding the reserved object whose version
annotation `b` is present but fails to parse with error `e`, the run returns `e`, issues
only the discovery, access-review and fetch calls (no delete, no create) and leaves the
stored objects unchanged. -/
theorem malformed_existing_blocks (sv : SemVer) (version b : String) (e : Err)
    (c : Client) (w : Cluster) (existing : ConsoleCLIDownload)
    (hcap : CapabilityPresent c) (hacc : AccessAllowed c)
    (hstore : HoldsVersion c w existing b)
    (hb : sv.NewVersion b = Except.error e) :
    (OpenShiftConsoleDownloadLink sv version c w).1 = some e ∧
    (OpenShiftConsoleDownloadLink sv version c w).2.calls = w.calls ++ gateCalls ∧
    (OpenShiftConsoleDownloadLink sv version c w).2.objects = w.objects := by
  obtain ⟨rs, h1, h2⟩ := capability_any hcap
  obtain ⟨hg, hl, hann⟩ := hstore
  unfold Cluster.lookup at hl
  unfold AccessAllowed at hacc
  simp [OpenShiftConsoleDownloadLink, isAPIResourceInstalled, Client.ServerResourcesForGroupVersion,
    Client.CreateAccessReview, Client.Get, accessReviewAttributes, gateCalls, h1, h2, hacc, hg, hl,
    hann, hb, Cluster.record, Cluster.lookup]

/-- Witness of C7: stored annotation `latest`, current 2.0.0. -/
theorem malformed_existing_blocks_witness :
    (OpenShiftConsoleDownloadLink releaseSemVer "2.0.0" healthyClient
      ⟨[consoleLink "latest"], []⟩).1 = some ErrInvalidSemVer ∧
    (OpenShiftConsoleDownloadLink releaseSemVer "2.0.0" healthyClient
      ⟨[consoleLink "latest"], []⟩).2.calls = [] ++ gateCalls ∧
    (OpenShiftConsoleDownloadLink releaseSemVer "2.0.0" healthyClient
      ⟨[consoleLink "latest"], []⟩).2.objects = [consoleLink "latest"] :=
  malformed_existing_blocks releaseSemVer "2.0.0" "latest" ErrInvalidSemVer healthyClient
    ⟨[consoleLink "latest"], []⟩ (consoleLink "latest") healthyClient_capability rfl
    ⟨rfl, rfl, rfl⟩ rfl

/-- C8 (delete failure): with the capability present, access allowed and the store
holding the reserved object with version annotation `b` not greater than the current
version `a`, if the delete call fails with error `e` then no create call is issued (the
calls are discovery, access review, fetch and the delete), the stored objects are
unchanged, and the run returns success when `e` is forbidden and `e` otherwise. -/
theorem delete_failure (sv : SemVer) (a b : String) (va vb : sv.Version)
    (c : Client) (w : Cluster) (existing : ConsoleCLIDownload) (e : Err)
    (hcap : CapabilityPresent c) (hacc : AccessAllowed c)
    (hstore : HoldsVersion c w existing b)
    (ha : sv.NewVersion a = Except.ok va) (hb : sv.NewVersion b = Except.ok vb)
    (hge : sv.LessThan va vb = false) (hdel : c.DeleteFailure = some e) :
    (IsForbidden e = true → (OpenShiftConsoleDownloadLink sv a c w).1 = none) ∧
    (IsForbidden e = false → (OpenShiftConsoleDownloadLink sv a c w).1 = some e) ∧
    (OpenShiftConsoleDownloadLink sv a c w).2.calls = w.calls ++ gateCalls ++ [Call.Delete existing] ∧
    (OpenShiftConsoleDownloadLink sv a c w).2.objects = w.objects := by
  rw [run_delete_fails sv a b va vb c w existing e hcap hacc hstore ha hb hge hdel]
  refine ⟨?_, ?_, rfl, rfl⟩
  · intro hf
    simp [hf]
  · intro hf
    simp [hf]

/-- Witness of C8: stored 1.9.0, current 2.0.0, delete failing with forbidden. -/
theorem delete_failure_witness :
    (OpenShiftConsoleDownloadLink releaseSemVer "2.0.0"
      (deleteFailsClient ⟨StatusReason.Forbidden, "forbidden"⟩) ⟨[consoleLink "1.9.0"], []⟩).1 = none ∧
    (OpenShiftConsoleDownloadLink releaseSemVer "2.0.0"
      (deleteFailsClient ⟨StatusReason.Unknown, "timeout"⟩) ⟨[consoleLink "1.9.0"], []⟩).1 =
        some ⟨StatusReason.Unknown, "timeout"⟩ ∧
    (OpenShiftConsoleDownloadLink releaseSemVer "2.0.0"
      (deleteFailsClient ⟨StatusReason.Forbidden, "forbidden"⟩) ⟨[consoleLink "1.9.0"], []⟩).2.calls =
        [] ++ gateCalls ++ [Call.Delete (consoleLink "1.9.0")] ∧
    (OpenShiftConsoleDownloadLink releaseSemVer "2.0.0"
      (deleteFailsClient ⟨StatusReason.Forbidden, "forbidden"⟩) ⟨[consoleLink "1.9.0"], []⟩).2.objects =
        [consoleLink "1.9.0"] :=
  ⟨(delete_failure releaseSemVer "2.0.0" "1.9.0" (2, 0, 0) (1, 9, 0)
      (deleteFailsClient ⟨StatusReason.Forbidden, "forbidden"⟩) ⟨[consoleLink "1.9.0"], []⟩
      (consoleLink "1.9.0") _ healthyClient_capability rfl ⟨rfl, rfl, rfl⟩ rfl rfl rfl rfl).1 rfl,
    (delete_failure releaseSemVer "2.0.0" "1.9.0" (2, 0, 0) (1, 9, 0)
      (deleteFailsClient ⟨StatusReason.Unknown, "timeout"⟩) ⟨[consoleLink "1.9.0"], []⟩
      (consoleLink "1.9.0") _ healthyClient_capability rfl ⟨rfl, rfl, rfl⟩ rfl rfl rfl rfl).2.1 rfl,
    (delete_failure releaseSemVer "2.0.0" "1.9.0" (2, 0, 0) (1, 9, 0)
      (deleteFailsClient ⟨StatusReason.Forbidden, "forbidden"⟩) ⟨[consoleLink "1.9.0"], []⟩
      (consoleLink "1.9.0") _ healthyClient_capability rfl ⟨rfl, rfl, rfl⟩ rfl rfl rfl rfl).2.2⟩

theorem Client.Get_calls (c : Client) (name : String) (w : Cluster) :
    (c.Get name w).2.calls = w.calls ++ [Call.Get name] := by
  unfold Client.Get
  repeat' split
  all_goals rfl

theorem Client.Get_objects (c : Client) (name : String) (w : Cluster) :
    (c.Get name w).2.objects = w.objects := by
  unfold Client.Get
  repeat' split
  all_goals rfl

theorem Client.Delete_calls (c : Client) (obj : ConsoleCLIDownload) (w : Cluster) :
    (c.Delete obj w).2.calls = w.calls ++ [Call.Delete obj] := by
  unfold Client.Delete
  repeat' split
  all_goals rfl

theorem Client.Create_calls (c : Client) (obj : ConsoleCLIDownload) (w : Cluster) :
    (c.Create obj w).2.calls = w.calls ++ [Call.Create obj] := by
  unfold Client.Create
  repeat' split
  all_goals rfl

theorem run_calls_cases (sv : SemVer) (version : String) (c : Client) (w : Cluster) :
    (OpenShiftConsoleDownloadLink sv version c w).2.calls =
        w.calls ++ (OpenShiftConsoleDownloadLink sv version c w).2.calls.drop w.calls.length ∧
      ∀ obj, Call.Create obj ∈ (OpenShiftConsoleDownloadLink sv version c w).2.calls.drop w.calls.length →
        obj = consoleLink version := by
  unfold OpenShiftConsoleDownloadLink isAPIResourceInstalled Client.ServerResourcesForGroupVersion
    Client.CreateAccessReview
  rcases c.ServerResources "console.openshift.io/v1" with e | rs
  · by_cases h : IsNotFound e = true <;> simp [h]
  · by_cases h : (rs.any fun resource => resource.Kind == "ConsoleCLIDownload") = true
    · simp only [h, if_true]
      rcases c.AccessReview accessReviewAttributes with e2 | (_ | _)
      · by_cases h2 : IsForbidden e2 = true <;> simp [h2]
      · simp
      · simp only []
        have hget := Client.Get_calls c KamelCLIDownloadName
          ((w.record (Call.Discovery "console.openshift.io/v1")).record
            (Call.AccessReview accessReviewAttributes))
        simp only [Cluster.calls_record] at hget
        generalize c.Get KamelCLIDownloadName
          ((w.record (Call.Discovery "console.openshift.io/v1")).record
            (Call.AccessReview accessReviewAttributes)) = got at hget ⊢
        rcases got with ⟨e3 | existing, w3⟩
        · simp only [] at hget ⊢
          by_cases h3 : IsNotFound e3 = true <;> simp [h3, Client.Create_calls, hget]
        · simp only [] at hget ⊢
          rcases existing.Annotations.lookup kamelVersionAnnotation with _ | stored
          · simp [Client.Create_calls, hget]
          · simp only []
            rcases sv.NewVersion stored with e4 | current
            · simp [hget]
            · rcases sv.NewVersion version with e5 | this
              · simp [hget]
              · simp only []
                cases sv.LessThan this current
                · simp only [Bool.false_eq_true, if_false]
                  have hdel := Client.Delete_calls c existing w3
                  generalize c.Delete existing w3 = deleted at hdel ⊢
                  rcases deleted with ⟨_ | e6, w4⟩
                  · simp only [] at hdel ⊢
                    simp [Client.Create_calls, hget, hdel]
                  · simp only [] at hdel ⊢
                    by_cases h6 : IsForbidden e6 = true <;> simp [h6, hget, hdel]
                · simp [hget]
    · simp [h]

theorem href_eq (v os : String) :
    Sprintf KamelCLIDownloadURLTemplate [v, v, os] =
      "https://github.com/apache/camel-k/releases/download/v" ++ v ++ "/camel-k-client-" ++ v ++
        "-" ++ os ++ "-64bit.tar.gz" := by
  apply String.ext
  simp only [String.data_append]
  simp [Sprintf, KamelCLIDownloadURLTemplate, sprintfChars]

/-- C9 (shape of the created resource): for every current version string `v`, every
create call issued by a run carries the object with the reserved name, the single
annotation `camel.apache.org/version` equal to `v`, the configured display name and
description, and exactly three links, for Linux, Mac and Windows in that order, whose
hrefs are the release URL with `v` in both places and the OS name; so every href
contains `v`. -/
theorem created_resource_shape (sv : SemVer) (v : String) (c : Client) (w : Cluster) :
    ∃ trace, (OpenShiftConsoleDownloadLink sv v c w).2.calls = w.calls ++ trace ∧
      ∀ obj, Call.Create obj ∈ trace →
        obj.Name = KamelCLIDownloadName ∧
        obj.Annotations = [("camel.apache.org/version", v)] ∧
        obj.DisplayName = KamelCLIDownloadDisplayName ∧
        obj.Description = KamelCLIDownloadDescription ∧
        obj.Links =
          [ ⟨"Download the kamel binary for Linux",
              "https://github.com/apache/camel-k/releases/download/v" ++ v ++ "/camel-k-client-" ++ v ++
                "-" ++ "linux" ++ "-64bit.tar.gz"⟩,
            ⟨"Download the kamel binary for Mac",
              "https://github.com/apache/camel-k/releases/download/v" ++ v ++ "/camel-k-client-" ++ v ++
                "-" ++ "mac" ++ "-64bit.tar.gz"⟩,
            ⟨"Download the kamel binary for Windows",
              "https://github.com/apache/camel-k/releases/download/v" ++ v ++ "/camel-k-client-" ++ v ++
                "-" ++ "windows" ++ "-64bit.tar.gz"⟩ ] ∧
        ∀ l ∈ obj.Links, ∃ before after, l.Href = before ++ v ++ after := by
  obtain ⟨hcalls, hcreate⟩ := run_calls_cases sv v c w
  refine ⟨_, hcalls, ?_⟩
  intro obj hobj
  rw [hcreate obj hobj]
  refine ⟨rfl, rfl, rfl, rfl, ?_, ?_⟩
  · simp only [consoleLink, href_eq]
  · intro l hl
    simp only [consoleLink, href_eq, List.mem_cons, List.mem_singleton, List.not_mem_nil,
      or_false] at hl
    rcases hl with rfl | rfl | rfl
    · exact ⟨"https://github.com/apache/camel-k/releases/download/v",
        "/camel-k-client-" ++ v ++ "-" ++ "linux" ++ "-64bit.tar.gz", by simp [String.append_assoc]⟩
    · exact ⟨"https://github.com/apache/camel-k/releases/download/v",
        "/camel-k-client-" ++ v ++ "-" ++ "mac" ++ "-64bit.tar.gz", by simp [String.append_assoc]⟩
    · exact ⟨"https://github.com/apache/camel-k/releases/download/v",
        "/camel-k-client-" ++ v ++ "-" ++ "windows" ++ "-64bit.tar.gz", by simp [String.append_assoc]⟩

/-- Witness of C9: empty store, current version 2.1.0; the run issues a create call and
the created object carries the three hrefs for 2.1.0. -/
theorem created_resource_shape_witness :
    ∃ obj, Call.Create obj ∈
        (OpenShiftConsoleDownloadLink releaseSemVer "2.1.0" healthyClient ⟨[], []⟩).2.calls ∧
      obj.Annotations = [("camel.apache.org/version", "2.1.0")] ∧
      obj.Links.map Link.Href =
        [ "https://github.com/apache/camel-k/releases/download/v2.1.0/camel-k-client-2.1.0-linux-64bit.tar.gz",
          "https://github.com/apache/camel-k/releases/download/v2.1.0/camel-k-client-2.1.0-mac-64bit.tar.gz",
          "https://github.com/apache/camel-k/releases/download/v2.1.0/camel-k-client-2.1.0-windows-64bit.tar.gz" ] := by
  obtain ⟨trace, htrace, hshape⟩ :=
    created_resource_shape releaseSemVer "2.1.0" healthyClient ⟨[], []⟩
  have hrun : (OpenShiftConsoleDownloadLink releaseSemVer "2.1.0" healthyClient ⟨[], []⟩).2.calls =
      gateCalls ++ [Call.Create (consoleLink "2.1.0")] := rfl
  have hmem : Call.Create (consoleLink "2.1.0") ∈ trace := by
    rw [hrun] at htrace
    simp only [List.nil_append] at htrace
    rw [← htrace]
    simp
  obtain ⟨_, hann, _, _, hlinks, _⟩ := hshape (consoleLink "2.1.0") hmem
  refine ⟨consoleLink "2.1.0", ?_, hann, ?_⟩
  · rw [hrun]
    simp
  · rw [hlinks]
    decide

theorem Client.Get_ok {c : Client} {name : String} {w w3 : Cluster} {obj : ConsoleCLIDownload}
    (h : c.Get name w = (Except.ok obj, w3)) : w.lookup name = some obj := by
  unfold Client.Get at h
  rcases hg : c.GetFailure with _ | e
  · rcases hl : w.lookup name with _ | found
    · simp [hg, hl] at h
    · simp [hg, hl] at h
      rw [h.1]
  · simp [hg] at h

theorem Client.Create_objects_present (c : Client) (obj found : ConsoleCLIDownload) (w : Cluster)
    (h : w.lookup obj.Name = some found) : (c.Create obj w).2.objects = w.objects := by
  unfold Client.Create
  rcases hc : c.CreateFailure with _ | e
  · simp [h]
  · simp

theorem Cluster.lookup_congr {w1 w2 : Cluster} (h : w1.objects = w2.objects) (name : String) :
    w1.lookup name = w2.lookup name := by
  unfold Cluster.lookup
  rw [h]

/-- Whatever the cluster answers, a run over a store whose reserved object carries no
version annotation leaves the stored objects as they were. -/
theorem run_unannotated_objects (sv : SemVer) (version : String) (c : Client) (w : Cluster)
    (existing : ConsoleCLIDownload)
    (hl : w.lookup KamelCLIDownloadName = some existing)
    (hann : existing.Annotations.lookup kamelVersionAnnotation = none) :
    (OpenShiftConsoleDownloadLink sv version c w).2.objects = w.objects := by
  unfold OpenShiftConsoleDownloadLink isAPIResourceInstalled Client.ServerResourcesForGroupVersion
    Client.CreateAccessReview
  rcases c.ServerResources "console.openshift.io/v1" with e | rs
  · by_cases h : IsNotFound e = true <;> simp [h]
  · by_cases h : (rs.any fun resource => resource.Kind == "ConsoleCLIDownload") = true
    · simp only [h, if_true]
      rcases c.AccessReview accessReviewAttributes with e2 | (_ | _)
      · by_cases h2 : IsForbidden e2 = true <;> simp [h2]
      · simp
      · simp only []
        have hobjs := Client.Get_objects c KamelCLIDownloadName
          ((w.record (Call.Discovery "console.openshift.io/v1")).record
            (Call.AccessReview accessReviewAttributes))
        simp only [Cluster.objects_record] at hobjs
        rcases hgot : c.Get KamelCLIDownloadName
          ((w.record (Call.Discovery "console.openshift.io/v1")).record
            (Call.AccessReview accessReviewAttributes)) with ⟨e3 | fetched, w3⟩
        · rw [hgot] at hobjs
          simp only [] at hobjs ⊢
          have hl3 : w3.lookup (consoleLink version).Name = some existing := by
            rw [Cluster.lookup_congr hobjs, consoleLink_name]
            exact hl
          by_cases h3 : IsNotFound e3 = true
          · simp only [h3, if_true]
            rw [Client.Create_objects_present c _ existing w3 hl3, hobjs]
          · simp [h3, hobjs]
        · rw [hgot] at hobjs
          simp only [] at hobjs ⊢
          have hfetched := Client.Get_ok hgot
          simp only [Cluster.lookup_record, hl, Option.some.injEq] at hfetched
          subst hfetched
          have hl3 : w3.lookup (consoleLink version).Name = some existing := by
            rw [Cluster.lookup_congr hobjs, consoleLink_name]
            exact hl
          simp only [hann]
          rw [Client.Create_objects_present c _ existing w3 hl3, hobjs]
    · simp [h]

/-- The run over a store whose reserved object carries no version annotation. -/
theorem run_unannotated (sv : SemVer) (version : String) (c : Client) (w : Cluster)
    (existing : ConsoleCLIDownload)
    (hcap : CapabilityPresent c) (hacc : AccessAllowed c)
    (hg : c.GetFailure = none) (hl : w.lookup KamelCLIDownloadName = some existing)
    (hann : existing.Annotations.lookup kamelVersionAnnotation = none) :
    OpenShiftConsoleDownloadLink sv version c w =
      ((match c.CreateFailure with
        | some e => some e
        | none => some (errAlreadyExists KamelCLIDownloadName)),
        ⟨w.objects, w.calls ++ gateCalls ++ [Call.Create (consoleLink version)]⟩) := by
  obtain ⟨rs, h1, h2⟩ := capability_any hcap
  unfold Cluster.lookup at hl
  unfold AccessAllowed at hacc
  rcases hcre : c.CreateFailure with _ | e <;>
  simp [OpenShiftConsoleDownloadLink, isAPIResourceInstalled, Client.ServerResourcesForGroupVersion,
    Client.CreateAccessReview, Client.Get, Client.Create, accessReviewAttributes,
    gateCalls, h1, h2, hacc, hg, hl, hann, hcre, consoleLink_name, Cluster.record, Cluster.lookup]

/-- C10 (existing resource without a version annotation): with the capability present,
access allowed and the store holding, under the reserved name, an object without the
`camel.apache.org/version` annotation, the run issues no delete call and goes from the
fetch straight to the create call; the store refuses the create with already-exists
(unless the create call fails otherwise), the run returns that error, the stored objects
are unchanged and the un-annotated object is still the one stored under the reserved
name; and no sequence of later invocations, whatever the versions and cluster answers,
changes the stored objects. -/
theorem unannotated_existing (sv : SemVer) (version : String) (c : Client) (w : Cluster)
    (existing : ConsoleCLIDownload)
    (hcap : CapabilityPresent c) (hacc : AccessAllowed c)
    (hg : c.GetFailure = none) (hl : w.lookup KamelCLIDownloadName = some existing)
    (hann : existing.Annotations.lookup kamelVersionAnnotation = none) :
    (OpenShiftConsoleDownloadLink sv version c w).2.calls =
      w.calls ++ gateCalls ++ [Call.Create (consoleLink version)] ∧
    (c.CreateFailure = none →
      (OpenShiftConsoleDownloadLink sv version c w).1 =
        some ⟨StatusReason.AlreadyExists,
          "consoleclidownloads.console.openshift.io \"" ++ KamelCLIDownloadName ++ "\" already exists"⟩) ∧
    (∀ e, c.CreateFailure = some e → (OpenShiftConsoleDownloadLink sv version c w).1 = some e) ∧
    (OpenShiftConsoleDownloadLink sv version c w).2.objects = w.objects ∧
    (OpenShiftConsoleDownloadLink sv version c w).2.lookup KamelCLIDownloadName = some existing ∧
    ∀ runs : List (String × Client), (reconcileAll sv runs w).objects = w.objects := by
  rw [run_unannotated sv version c w existing hcap hacc hg hl hann]
  refine ⟨rfl, ?_, ?_, rfl, hl, ?_⟩
  · intro hcre
    simp [hcre, errAlreadyExists]
  · intro e hcre
    simp [hcre]
  · intro runs
    clear hcap hacc hg
    induction runs generalizing w with
    | nil => rfl
    | cons r rest ih =>
      obtain ⟨v, c2⟩ := r
      have hobjs := run_unannotated_objects sv v c2 w existing hl hann
      have hl2 : (OpenShiftConsoleDownloadLink sv v c2 w).2.lookup KamelCLIDownloadName =
          some existing := by
        rw [Cluster.lookup_congr hobjs]
        exact hl
      simp only [reconcileAll]
      rw [ih _ hl2, hobjs]

/-- Witness of C10: the store holds an un-annotated `kamel-cli`, current version 2.0.0,
followed by two further invocations. -/
theorem unannotated_existing_witness :
    (OpenShiftConsoleDownloadLink releaseSemVer "2.0.0" healthyClient ⟨[bareLink], []⟩).2.calls =
      [] ++ gateCalls ++ [Call.Create (consoleLink "2.0.0")] ∧
    (OpenShiftConsoleDownloadLink releaseSemVer "2.0.0" healthyClient ⟨[bareLink], []⟩).1 =
      some ⟨StatusReason.AlreadyExists,
        "consoleclidownloads.console.openshift.io \"" ++ KamelCLIDownloadName ++ "\" already exists"⟩ ∧
    (OpenShiftConsoleDownloadLink releaseSemVer "2.0.0" healthyClient ⟨[bareLink], []⟩).2.objects =
      [bareLink] ∧
    (reconcileAll releaseSemVer [("2.0.0", healthyClient), ("3.0.0", healthyClient)]
      ⟨[bareLink], []⟩).objects = [bareLink] :=
  have h := unannotated_existing releaseSemVer "2.0.0" healthyClient ⟨[bareLink], []⟩ bareLink
    healthyClient_capability rfl rfl rfl rfl
  ⟨h.1, h.2.1 rfl, h.2.2.2.1, h.2.2.2.2.2 [("2.0.0", healthyClient), ("3.0.0", healthyClient)]⟩

end Install
